import Mathlib

/-!
Verification of the claimso-services content pipeline (src/unnamed/part_001,
with src/unnamed/part_000 its compiled JavaScript twin).

Modelling conventions:
* JavaScript strings are shallowly embedded as `List Nat` of code points.
* External capabilities (the OpenAI completion call, pdf-lib font metrics,
  the passkit signing library, the ics encoder) are opaque: they are
  parameters (oracles) of the embedded functions.  In particular the
  pdf-lib width measurement `regularFont.widthOfTextAtSize(testLine, 11) >
  maxLineWidth` is abstracted into a boolean predicate `tooWide`, since the
  only use the source makes of the measurement is this comparison.
* JavaScript truthiness of an optional string is `Option (List Nat)` being
  `some` of a non-empty list; of an optional number, `some` of a non-zero
  integer.  NaN and float formatting are out of scope; numbers that the
  claims touch are integers.
* Page geometry is the source's `PageSizes.Letter` (612 x 792); the
  vertical cursor arithmetic is over `Int` (it may go below zero, matching
  the renderer's documented single-page, no-overflow-check behaviour).
-/

set_option maxRecDepth 100000

namespace ClaimsoServices

/-- Code points of an (ASCII) Lean string literal, used to transliterate the
source's string literals. -/
def strCodes (s : String) : List Nat := s.data.map Char.toNat

/-! ## sanitizeText (src/unnamed/part_001 lines 163-174) -/

/-- The character class of the source's first replace,
`/[\x00-\x08\x0B\x0C\x0E-\x1F\x7F]/`. -/
def inCtrlClass (c : Nat) : Bool :=
  decide (c ≤ 8 ∨ c = 11 ∨ c = 12 ∨ (14 ≤ c ∧ c ≤ 31) ∨ c = 127)

/-- The character class of the source's second replace, the four markup
delimiters of `/[<>{}]/` (code points 60, 62, 123, 125). -/
def inAngleBraceClass (c : Nat) : Bool :=
  decide (c = 60 ∨ c = 62 ∨ c = 123 ∨ c = 125)

/-- JavaScript's `\s` class (also the class trimmed by `String.prototype.trim`):
tab, LF, VT, FF, CR, space, NBSP, OGHAM space, the U+2000 block,
line/paragraph separators, NNBSP, MMSP, ideographic space and the BOM. -/
def isJsWs (c : Nat) : Bool :=
  decide (c = 9 ∨ c = 10 ∨ c = 11 ∨ c = 12 ∨ c = 13 ∨ c = 32 ∨ c = 160 ∨
    c = 5760 ∨ (8192 ≤ c ∧ c ≤ 8202) ∨ c = 8232 ∨ c = 8233 ∨ c = 8239 ∨
    c = 8287 ∨ c = 12288 ∨ c = 65279)

/-- `replace(/\s+/g, ' ')`: every maximal run of whitespace becomes one
space.  The flag records whether the previous character was whitespace. -/
def collapseWsAux : Bool → List Nat → List Nat
  | _, [] => []
  | prevWs, c :: rest =>
    if isJsWs c then (if prevWs then [] else [32]) ++ collapseWsAux true rest
    else c :: collapseWsAux false rest

def collapseWs (l : List Nat) : List Nat := collapseWsAux false l

/-- Leading-whitespace half of `trim()`. -/
def lstripWs (l : List Nat) : List Nat := l.dropWhile isJsWs

/-- Trailing-whitespace half of `trim()`. -/
def rstripWs (l : List Nat) : List Nat := (l.reverse.dropWhile isJsWs).reverse

def trimWs (l : List Nat) : List Nat := rstripWs (lstripWs l)

/-- `sanitizeText` (lines 163-174): falsy guard, control-class removal,
markup-delimiter removal, whitespace collapse, trim, `substring(0, 1000)`. -/
def sanitizeText (text : List Nat) : List Nat :=
  if text = [] then []
  else
    (trimWs (collapseWs
      ((text.filter (fun c => !inCtrlClass c)).filter
        (fun c => !inAngleBraceClass c)))).take 1000

/-! ## The greedy word wrap of generateWarrantyClaimPacket (lines 502-521) -/

/-- `sanitizedDescription.split(' ')`: split on the space character keeping
empty tokens, as JavaScript's `String.prototype.split` does
(`''.split(' ')` is `['']`). -/
def splitSp : List Nat → List (List Nat)
  | [] => [[]]
  | c :: rest =>
    if c = 32 then [] :: splitSp rest
    else
      match splitSp rest with
      | [] => [[c]]
      | t :: ts => (c :: t) :: ts

/-- The `words.forEach` loop of lines 507-517 plus the final flush of lines
519-521.  `tooWide l` stands for the opaque pdf-lib comparison
`regularFont.widthOfTextAtSize(l, 11) > maxLineWidth`. -/
def wrapWords (tooWide : List Nat → Bool) : List (List Nat) → List Nat → List (List Nat)
  | [], currentLine => if currentLine = [] then [] else [currentLine]
  | word :: rest, currentLine =>
    let testLine := currentLine ++ (if currentLine = [] then [] else [32]) ++ word
    if tooWide testLine ∧ currentLine ≠ [] then
      currentLine :: wrapWords tooWide rest word
    else
      wrapWords tooWide rest testLine

/-- The wrap starts from the empty line buffer (`let currentLine = ''`). -/
def wrapLines (tooWide : List Nat → Bool) (words : List (List Nat)) : List (List Nat) :=
  wrapWords tooWide words []

/-! ## Number printing (template literals interpolating JS numbers) -/

def natToStr (n : Nat) : List Nat := (Nat.toDigits 10 n).map Char.toNat

def intToStr (i : Int) : List Nat :=
  if i < 0 then 45 :: natToStr i.natAbs else natToStr i.natAbs

/-! ## The claim-packet renderer (lines 405-558) -/

structure PdfProduct where
  id : List Nat
  name : List Nat
  brand : Option (List Nat)
  serial_number : Option (List Nat)
  purchase_date : Option (List Nat)
  order_number : Option (List Nat)
  retailer : Option (List Nat)
  price : Option Int
  currency : Option (List Nat)
  category : Option (List Nat)

structure PacketRequest where
  product : PdfProduct
  problemDescription : List Nat
  userName : List Nat
  userEmail : List Nat

inductive PdfFont where
  | bold
  | regular
deriving DecidableEq

/-- A drawing operation on the single page: `page.drawText` (text, x, y,
size, font; the colour does not matter to any claim and is omitted) or
`page.drawLine`. -/
inductive Op where
  | text (t : List Nat) (x y : Int) (size : Nat) (font : PdfFont)
  | line (x1 y1 x2 y2 : Int)
deriving DecidableEq

/-- `request.product.brand || 'N/A'` etc.: empty/absent optional strings
default to the literal before sanitization. -/
def orNA (o : Option (List Nat)) : List Nat :=
  match o with
  | some s => if s = [] then strCodes "N/A" else s
  | none => strCodes "N/A"

/-- `request.product.currency || '$'` (36 is the dollar sign). -/
def orDollar (o : Option (List Nat)) : List Nat :=
  match o with
  | some s => if s = [] then [36] else s
  | none => [36]

/-- Line 488: `request.product.price ? currency+price : 'N/A'`; a price of 0
is falsy and renders as N/A; the composed cell is NOT sanitized. -/
def priceCell (p : PdfProduct) : List Nat :=
  match p.price with
  | some n => if n = 0 then strCodes "N/A" else orDollar p.currency ++ intToStr n
  | none => strCodes "N/A"

/-- The quoted rendering of a wrapped description line (34 is the double
quote): drawn text is the measured buffer wrapped in quotes. -/
def quoteLine (l : List Nat) : List Nat := 34 :: (l ++ [34])

/-- Line 548: the footer document id interpolates the raw product id and
`Date.now()` (45 is the hyphen); the id is NOT sanitized. -/
def docIdText (id nowMs : List Nat) : List Nat :=
  strCodes "Document ID: " ++ id ++ [45] ++ nowMs

/-- The label/value row loops of lines 473-477 and 491-495: label at x=70,
value at x=200, both size 11, cursor drops 16 per row. -/
def drawRows : List (List Nat × List Nat) → Int → List Op × Int
  | [], y => ([], y)
  | row :: rest, y =>
    let tail := drawRows rest (y - 16)
    (Op.text row.1 70 y 11 .bold :: Op.text row.2 200 y 11 .regular :: tail.1, tail.2)

/-- The wrapped problem-description lines: each is drawn quoted by `addText`
at x=70 size 11 (cursor drop 11 + 5 = 16). -/
def emitLines : List (List Nat) → Int → List Op × Int
  | [], y => ([], y)
  | l :: ls, y =>
    let tail := emitLines ls (y - 16)
    (Op.text (quoteLine l) 70 y 11 .regular :: tail.1, tail.2)

/-- `generateWarrantyClaimPacket` (lines 405-558) as the list of drawing
operations it performs, in order.  `currentDate` is the rendered
`toLocaleDateString` result, `nowMs` the rendered `Date.now()`, and
`tooWide` the opaque width comparison; Letter geometry (612 x 792) with
`yPosition` starting at `height - 50` and `addText` dropping it by
`fontSize + 5`. -/
def generateWarrantyClaimPacket (req : PacketRequest) (currentDate nowMs : List Nat)
    (tooWide : List Nat → Bool) : List Op :=
  let width : Int := 612
  let height : Int := 792
  let y1 : Int := height - 50
  let y2 : Int := y1 - 29
  let y3 : Int := y2 - 21
  let y4 : Int := y3 - 10
  let y5 : Int := y4 - 20
  let y6 : Int := y5 - 17
  let y7 : Int := y6 - 20
  let y8 : Int := y7 - 19
  let y9 : Int := y8 - 17
  let y10 : Int := y9 - 17
  let y11 : Int := y10 - 20
  let y12 : Int := y11 - 19
  let y13 : Int := y12 - 5
  let productRows := drawRows
    [(strCodes "Product Name:", sanitizeText (orNA (some req.product.name))),
     (strCodes "Brand:", sanitizeText (orNA req.product.brand)),
     (strCodes "Category:", sanitizeText (orNA req.product.category)),
     (strCodes "Serial Number:", sanitizeText (orNA req.product.serial_number))] y13
  let y14 : Int := productRows.2
  let y15 : Int := y14 - 20
  let y16 : Int := y15 - 19
  let y17 : Int := y16 - 5
  let purchaseRows := drawRows
    [(strCodes "Purchase Date:", sanitizeText (orNA req.product.purchase_date)),
     (strCodes "Retailer:", sanitizeText (orNA req.product.retailer)),
     (strCodes "Order Number:", sanitizeText (orNA req.product.order_number)),
     (strCodes "Price:", priceCell req.product)] y17
  let y18 : Int := purchaseRows.2
  let y19 : Int := y18 - 20
  let y20 : Int := y19 - 19
  let y21 : Int := y20 - 5
  let descLines := wrapLines tooWide (splitSp (sanitizeText req.problemDescription))
  let descOps := emitLines descLines y21
  let y22 : Int := descOps.2
  let y23 : Int := y22 - 20
  let y24 : Int := y23 - 19
  let y25 : Int := y24 - 5
  let y26 : Int := y25 - 16
  [Op.text (strCodes "WARRANTY CLAIM PACKET") 50 y1 24 .bold,
   Op.text (strCodes "CLAIMSO") (width - 150) y2 16 .bold,
   Op.line 50 y4 (width - 50) y4,
   Op.text (strCodes "Generated: " ++ currentDate) 50 y5 12 .regular,
   Op.text (strCodes "PREPARED FOR:") 50 y7 14 .bold,
   Op.text (sanitizeText req.userName) 70 y8 12 .regular,
   Op.text (sanitizeText req.userEmail) 70 y9 12 .regular,
   Op.text (strCodes "PRODUCT DETAILS:") 50 y11 14 .bold]
  ++ productRows.1 ++
  [Op.text (strCodes "PURCHASE INFORMATION:") 50 y15 14 .bold]
  ++ purchaseRows.1 ++
  [Op.text (strCodes "PROBLEM DESCRIPTION:") 50 y19 14 .bold]
  ++ descOps.1 ++
  [Op.text (strCodes "SUPPORTING EVIDENCE:") 50 y23 14 .bold,
   Op.text (strCodes "Photos/videos available upon request.") 70 y25 11 .regular,
   Op.text (strCodes "Additional documentation can be provided as needed.") 70 y26 11 .regular,
   Op.line 50 70 (width - 50) 70,
   Op.text (strCodes "Generated by CLAIMSO") 50 50 10 .regular,
   Op.text (docIdText req.product.id nowMs) (width - 200) 50 10 .regular]

/-- The texts drawn by a list of operations, in drawing order. -/
def textsOf (ops : List Op) : List (List Nat) :=
  ops.filterMap (fun op =>
    match op with
    | Op.text t _ _ _ _ => some t
    | Op.line _ _ _ _ => none)

/-- The drawn-text list that claim C1 asserts: every caller-sourced value,
including the price/currency cell and the footer product identifier, passed
through `sanitizeText`.  This follows the claim's words, for comparison
with the renderer. -/
def claimedSanitizedTexts (req : PacketRequest) (currentDate nowMs : List Nat)
    (tooWide : List Nat → Bool) : List (List Nat) :=
  [strCodes "WARRANTY CLAIM PACKET",
   strCodes "CLAIMSO",
   strCodes "Generated: " ++ currentDate,
   strCodes "PREPARED FOR:",
   sanitizeText req.userName,
   sanitizeText req.userEmail,
   strCodes "PRODUCT DETAILS:",
   strCodes "Product Name:", sanitizeText (orNA (some req.product.name)),
   strCodes "Brand:", sanitizeText (orNA req.product.brand),
   strCodes "Category:", sanitizeText (orNA req.product.category),
   strCodes "Serial Number:", sanitizeText (orNA req.product.serial_number),
   strCodes "PURCHASE INFORMATION:",
   strCodes "Purchase Date:", sanitizeText (orNA req.product.purchase_date),
   strCodes "Retailer:", sanitizeText (orNA req.product.retailer),
   strCodes "Order Number:", sanitizeText (orNA req.product.order_number),
   strCodes "Price:", sanitizeText (priceCell req.product),
   strCodes "PROBLEM DESCRIPTION:"]
  ++ (wrapLines tooWide (splitSp (sanitizeText req.problemDescription))).map quoteLine ++
  [strCodes "SUPPORTING EVIDENCE:",
   strCodes "Photos/videos available upon request.",
   strCodes "Additional documentation can be provided as needed.",
   strCodes "Generated by CLAIMSO",
   docIdText (sanitizeText req.product.id) nowMs]

/-! ## The spec-worded sanitizer composition (claim C6) -/

/-- Non-printable control characters in the spec's sense: the ASCII control
range together with DEL.  (Tab, LF and CR are members: they are
non-printable control characters.) -/
def isControlChar (c : Nat) : Bool := decide (c ≤ 31 ∨ c = 127)

/-- Following the spec's words (its section 4.4): remove non-printable
control characters, remove the four delimiters, collapse whitespace runs to
single spaces, trim, truncate to 1000 characters, in that order. -/
def specSanitizeText (text : List Nat) : List Nat :=
  (trimWs (collapseWs
    ((text.filter (fun c => !isControlChar c)).filter
      (fun c => !inAngleBraceClass c)))).take 1000

/-- The amended step 1: remove only those non-printable control characters
that are not tab, LF or CR; those three survive to be collapsed into
spaces by step 3 (and non-ASCII control characters are untouched). -/
def specSanitizeTextAmended (text : List Nat) : List Nat :=
  if text = [] then []
  else
    (trimWs (collapseWs
      ((text.filter (fun c => !(isControlChar c && !decide (c = 9 ∨ c = 10 ∨ c = 13)))).filter
        (fun c => !inAngleBraceClass c)))).take 1000

/-! ## The AI extraction pipeline (lines 293-332 and 360-396) -/

structure AIProcessedProduct where
  product_name : Option (List Nat)
  brand : Option (List Nat)
  model : Option (List Nat)
  category : Option (List Nat)
  purchase_date : Option (List Nat)
  purchase_price : Option Int
  currency : Option (List Nat)
  purchase_location : Option (List Nat)
  serial_number : Option (List Nat)
  condition : Option (List Nat)
  notes : Option (List Nat)
deriving DecidableEq

/-- The observable outcome of the opaque OpenAI receipt-extraction call:
the call throws, returns no/empty completion text, returns text that is not
JSON, or returns a parsed object. -/
inductive ReceiptOutcome where
  | apiThrow
  | noText
  | badJson
  | parsed (p : AIProcessedProduct)

/-- The catch-branch record of lines 327-330. -/
def receiptFallback (subject text : List Nat) : AIProcessedProduct where
  product_name := some (strCodes "Email Purchase: " ++ subject)
  brand := none
  model := none
  category := none
  purchase_date := none
  purchase_price := none
  currency := none
  purchase_location := none
  serial_number := none
  condition := none
  notes := some (strCodes "Automated extraction failed. Original content: " ++
    text.take 500 ++ strCodes "...")

/-- `parseReceiptWithAI` (lines 293-332): any failure, including a parsed
object whose `product_name` is absent or empty (falsy), yields the degraded
fallback record. -/
def parseReceiptWithAI (o : ReceiptOutcome) (subject text : List Nat) : AIProcessedProduct :=
  match o with
  | .parsed p =>
    match p.product_name with
    | some s => if s = [] then receiptFallback subject text else p
    | none => receiptFallback subject text
  | _ => receiptFallback subject text

/-- A receipt extraction failed in the sense of the claim: no completion
text, unparseable JSON, a thrown call, or a missing/empty product name. -/
def receiptFailed (o : ReceiptOutcome) : Prop :=
  match o with
  | .parsed p => p.product_name = none ∨ p.product_name = some []
  | _ => True

instance (o : ReceiptOutcome) : Decidable (receiptFailed o) := by
  unfold receiptFailed
  cases o <;> infer_instance

structure OrderStatusUpdate where
  order_id : Option (List Nat)
  status : Option (List Nat)
  tracking_number : Option (List Nat)
  estimated_delivery : Option (List Nat)
  notes : Option (List Nat)
deriving DecidableEq

/-- The observable outcome of the opaque status-update extraction call. -/
inductive StatusOutcome where
  | apiThrow
  | noText
  | badJson
  | parsed (r : OrderStatusUpdate)

/-- `parseStatusUpdateWithAI` (lines 360-396): a record is returned only
when both `order_id` and `status` are truthy; every failure path returns
null. -/
def parseStatusUpdateWithAI (o : StatusOutcome) : Option OrderStatusUpdate :=
  match o with
  | .parsed r =>
    match r.order_id, r.status with
    | some a, some b => if a = [] ∨ b = [] then none else some r
    | _, _ => none
  | _ => none

/-- A status extraction failed in the sense of the claim. -/
def statusFailed (o : StatusOutcome) : Prop :=
  match o with
  | .parsed r =>
    r.order_id = none ∨ r.order_id = some [] ∨ r.status = none ∨ r.status = some []
  | _ => True

instance (o : StatusOutcome) : Decidable (statusFailed o) := by
  unfold statusFailed
  cases o <;> infer_instance

/-! ## The calendar generator (lines 850-895) -/

/-- A calendar date in the JavaScript `Date` accessor convention:
`month` is 0-based (getMonth), `day` is 1-based (getDate). -/
structure Ymd where
  year : Int
  month : Int
  day : Int
deriving DecidableEq

def isLeapYear (y : Int) : Bool :=
  (y % 4 == 0 && y % 100 != 0) || y % 400 == 0

def daysInMonth (y m : Int) : Int :=
  if m = 1 then (if isLeapYear y then 29 else 28)
  else if m = 3 ∨ m = 5 ∨ m = 8 ∨ m = 10 then 30
  else 31

/-- `expirationDate.setMonth(expirationDate.getMonth() + k)` (line 863):
the month index is renormalized into 0..11 with year carry, and a
day-of-month beyond the end of the target month rolls into the following
month (for a valid input date the excess is at most 3 days, so a single
carry step is exact). -/
def setMonthPlus (d : Ymd) (k : Int) : Ymd :=
  let t := d.month + k
  let y := d.year + t.ediv 12
  let m := t.emod 12
  if d.day ≤ daysInMonth y m then ⟨y, m, d.day⟩
  else if m = 11 then ⟨y + 1, 0, d.day - daysInMonth y m⟩
  else ⟨y, m + 1, d.day - daysInMonth y m⟩

/-- The calendar-generator request body; `purchase_date` is the parsed
`new Date(body.purchase_date)` (none for an absent/empty field), and
`warranty_length_months` the JSON number (none for an absent field). -/
structure CalendarBody where
  id : List Nat
  product_name : List Nat
  purchase_date : Option Ymd
  warranty_length_months : Option Int

/-- The observable outcome of the calendar route after auth: the 400
missing-fields rejection, the event handed to the ics encoder (with its
1-based start month), or the encoder-failure 500. -/
inductive CalendarResult where
  | validationError
  | icsEvent (startY startM startD : Int)
      (title description alarmDescription : List Nat)
  | encodingError
deriving DecidableEq

/-- The calendar route body (lines 855-889): truthiness validation of the
four fields (a months value of 0 is falsy and rejected), month arithmetic,
event construction, and the opaque `createEvent` capability abstracted by
`icsOk`. -/
def calendarGenerator (body : CalendarBody) (icsOk : Bool) : CalendarResult :=
  match body.purchase_date, body.warranty_length_months with
  | some pd, some k =>
    if body.id = [] ∨ body.product_name = [] ∨ k = 0 then .validationError
    else
      let e := setMonthPlus pd k
      if icsOk then
        .icsEvent e.year (e.month + 1) e.day
          (strCodes "Warranty Expiration: " ++ body.product_name)
          (strCodes "Your warranty for " ++ body.product_name ++ strCodes " expires today.")
          (strCodes "Reminder: Warranty expires in 1 week for " ++ body.product_name)
      else .encodingError
  | _, _ => .validationError

/-! ## The Apple-pass composer (lines 567-721) -/

structure UserProfile where
  id : List Nat
  full_name : Option (List Nat)
  email : List Nat
  productCount : Int

structure PassField where
  key : List Nat
  label : List Nat
  value : List Nat
deriving DecidableEq

structure PassGeneric where
  primaryFields : List PassField
  secondaryFields : List PassField
  auxiliaryFields : List PassField
  backFields : List PassField
deriving DecidableEq

structure PassJson where
  passTypeIdentifier : List Nat
  teamIdentifier : List Nat
  organizationName : List Nat
  description : List Nat
  logoText : List Nat
  generic : PassGeneric
  barcodeMessage : List Nat
  serialNumber : Option (List Nat)
deriving DecidableEq

/-- The certificate-bearing environment variables consumed by the pass
route (values are opaque base64 payloads; decoding is external). -/
structure PassEnv where
  PASSKIT_CERT : Option (List Nat)
  PASSKIT_KEY : Option (List Nat)
  PASSKIT_KEY_PASSPHRASE : Option (List Nat)
  WWDR_CERT : Option (List Nat)
  PASS_TYPE_IDENTIFIER : Option (List Nat)
  APPLE_TEAM_ID : Option (List Nat)

/-- `getOptionalEnvVar` (lines 39-42): an absent or empty variable falls
back to the default. -/
def getOptionalEnvVar (v : Option (List Nat)) (defaultValue : List Nat) : List Nat :=
  match v with
  | some s => if s = [] then defaultValue else s
  | none => defaultValue

/-- Truthiness of a raw environment variable access (`process.env['X']`). -/
def truthyEnv (v : Option (List Nat)) : Bool :=
  match v with
  | some s => !s.isEmpty
  | none => false

/-- `loadPassAssets` (lines 583-655): the static template.
`memberSinceYear` renders `new Date().getFullYear().toString()`. -/
def loadPassAssets (env : PassEnv) (memberSinceYear : List Nat) : PassJson where
  passTypeIdentifier := getOptionalEnvVar env.PASS_TYPE_IDENTIFIER (strCodes "pass.com.claimso.smartpass")
  teamIdentifier := getOptionalEnvVar env.APPLE_TEAM_ID (strCodes "YOUR_TEAM_ID")
  organizationName := strCodes "CLAIMSO"
  description := strCodes "CLAIMSO Smart Pass - Personal Warranty Assistant"
  logoText := strCodes "CLAIMSO"
  generic :=
    { primaryFields := [⟨strCodes "title", strCodes "Smart Pass", strCodes "Personal Warranty Assistant"⟩]
      secondaryFields :=
        [⟨strCodes "status", strCodes "Status", strCodes "Active"⟩,
         ⟨strCodes "products", strCodes "Products Protected", strCodes "Loading..."⟩]
      auxiliaryFields := [⟨strCodes "member-since", strCodes "Member Since", memberSinceYear⟩]
      backFields :=
        [⟨strCodes "description", strCodes "About CLAIMSO Smart Pass",
          strCodes "Your personal warranty assistant that helps you track purchases, manage warranties, and file claims with confidence."⟩,
         ⟨strCodes "features", strCodes "Features",
          strCodes "Real-time warranty notifications / Automatic receipt processing / Smart claim assistance / Universal product tracking"⟩,
         ⟨strCodes "support", strCodes "Support",
          strCodes "Need help? Visit claimso.com/support or email hello@claimso.com"⟩] }
  barcodeMessage := []
  serialNumber := none

/-- The `customizedPassJson` spread expression of lines 663-692: set the
serial number, replace the `products` secondary field by filtering it out
and appending the updated count, append the `user-info` back field, and
point the barcode at the user id. -/
def customizePassJson (assets : PassJson) (u : UserProfile) : PassJson :=
  { assets with
    serialNumber := some u.id
    generic :=
      { assets.generic with
        secondaryFields :=
          assets.generic.secondaryFields.filter (fun f => f.key ≠ strCodes "products") ++
            [⟨strCodes "products", strCodes "Products Protected", intToStr u.productCount⟩]
        backFields :=
          assets.generic.backFields ++
            [⟨strCodes "user-info", strCodes "Vault Owner",
              (match u.full_name with
               | some s => if s = [] then strCodes "User" else s
               | none => strCodes "User") ++ [10] ++ u.email⟩] }
    barcodeMessage := u.id }

/-- The credential bundle handed to the external PKPass signer. -/
structure SignerCredentials where
  signerCert : List Nat
  signerKey : List Nat
  signerKeyPassphrase : List Nat
  wwdr : List Nat
deriving DecidableEq

/-- The observable phases of `generateApplePass`: composing the customized
field structure, and constructing/signing the PKPass. -/
inductive PassStep where
  | composeFields
  | constructAndSign
deriving DecidableEq

/-- `generateApplePass` (lines 660-721) with its evaluation order made
observable as a step trace: the customized pass JSON is composed first
(lines 663-692), the mandatory-credential check happens after (line 700),
and only then is the PKPass constructed and signed.  The result carries the
fully-populated structure handed to the opaque signer, or the thrown
configuration error. -/
def generateApplePass (env : PassEnv) (u : UserProfile) (memberSinceYear : List Nat) :
    List PassStep × Except (List Nat) (PassJson × SignerCredentials) :=
  let assets := loadPassAssets env memberSinceYear
  let customized := customizePassJson assets u
  if truthyEnv env.PASSKIT_CERT && truthyEnv env.PASSKIT_KEY then
    ([.composeFields, .constructAndSign],
     .ok (customized,
       { signerCert := env.PASSKIT_CERT.getD []
         signerKey := env.PASSKIT_KEY.getD []
         signerKeyPassphrase := (env.PASSKIT_KEY_PASSPHRASE.getD [])
         wwdr := (env.WWDR_CERT.getD []) }))
  else
    ([.composeFields],
     .error (strCodes "Missing required certificate environment variables: PASSKIT_CERT, PASSKIT_KEY"))

/-! ## The route boundary (lines 733-895) -/

structure RouteResponse where
  status : Nat
  body : List Nat
deriving DecidableEq

/-- `getRequiredEnvVar` (lines 31-37): throws (as `Except.error`) when the
variable is absent or empty. -/
def getRequiredEnvVar (v : Option (List Nat)) (key : List Nat) : Except (List Nat) (List Nat) :=
  match v with
  | some s =>
    if s = [] then .error (strCodes "Missing required environment variable: " ++ key)
    else .ok s
  | none => .error (strCodes "Missing required environment variable: " ++ key)

/-- `checkAuth` (lines 179-193): may itself throw (via `getRequiredEnvVar`);
otherwise returns a 401 response or passes (`null`). -/
def checkAuth (servicesApiKey : Option (List Nat)) (authHeader : Option (List Nat)) :
    Except (List Nat) (Option RouteResponse) :=
  match getRequiredEnvVar servicesApiKey (strCodes "SERVICES_API_KEY") with
  | .error e => .error e
  | .ok expectedKey =>
    match authHeader with
    | none => .ok (some ⟨401, strCodes "Missing Authorization header"⟩)
    | some h =>
      if h.take 7 ≠ strCodes "Bearer " then .ok (some ⟨401, strCodes "Missing Authorization header"⟩)
      else if h.drop 7 ≠ expectedKey then .ok (some ⟨401, strCodes "Invalid API key"⟩)
      else .ok none

/-- The shared shape of all four POST handlers: `checkAuth` runs OUTSIDE
the try block; the try block wraps the rest (`process`, an oracle for the
route's body work which may throw), and its catch maps any thrown error to
the route's generic 500 response.  An `Except.error` result models an
exception propagating out of the handler uncaught. -/
def runRoute (servicesApiKey authHeader : Option (List Nat)) (catchResponse : RouteResponse)
    (process : Except (List Nat) RouteResponse) : Except (List Nat) RouteResponse :=
  match checkAuth servicesApiKey authHeader with
  | .error e => .error e
  | .ok (some authResp) => .ok authResp
  | .ok none =>
    match process with
    | .error _ => .ok catchResponse
    | .ok r => .ok r

def emailParserRoute (k h : Option (List Nat)) (p : Except (List Nat) RouteResponse) :
    Except (List Nat) RouteResponse :=
  runRoute k h ⟨500, strCodes "Internal server error"⟩ p

def pdfGeneratorRoute (k h : Option (List Nat)) (p : Except (List Nat) RouteResponse) :
    Except (List Nat) RouteResponse :=
  runRoute k h ⟨500, strCodes "Failed to generate PDF"⟩ p

def passGeneratorRoute (k h : Option (List Nat)) (p : Except (List Nat) RouteResponse) :
    Except (List Nat) RouteResponse :=
  runRoute k h ⟨500, strCodes "Failed to generate pass"⟩ p

def calendarGeneratorRoute (k h : Option (List Nat)) (p : Except (List Nat) RouteResponse) :
    Except (List Nat) RouteResponse :=
  runRoute k h ⟨500, strCodes "Failed to generate calendar event"⟩ p

/-- Adjacent-character invariant of collapsed text: of any two neighbouring
characters at least one is not whitespace (no whitespace runs of length
two survive `collapseWs`). -/
def wsSpaced (a b : Nat) : Prop := isJsWs a = false ∨ isJsWs b = false

/-! # Helper lemmas -/

lemma length_dropWhile_le' (p : Nat → Bool) (l : List Nat) :
    (l.dropWhile p).length ≤ l.length := by
  conv_rhs => rw [← List.takeWhile_append_dropWhile p l]
  rw [List.length_append]
  omega

lemma dropWhile_head_not (p : Nat → Bool) :
    ∀ (l : List Nat) (c : Nat) (t : List Nat), l.dropWhile p = c :: t → p c = false := by
  intro l
  induction l with
  | nil => intro c t h; simp at h
  | cons a l' ih =>
    intro c t h
    rw [List.dropWhile_cons] at h
    by_cases hp : p a = true
    · rw [if_pos hp] at h
      exact ih c t h
    · rw [if_neg hp] at h
      obtain ⟨rfl, -⟩ := List.cons.inj h
      simpa using hp

lemma collapseWsAux_cons_not_ws (b : Bool) (d : Nat) (t : List Nat) (hd : isJsWs d = false) :
    collapseWsAux b (d :: t) = d :: collapseWsAux false t := by
  simp [collapseWsAux, hd]

lemma collapseWsAux_cons_ws_false (d : Nat) (t : List Nat) (hd : isJsWs d = true) :
    collapseWsAux false (d :: t) = 32 :: collapseWsAux true t := by
  simp [collapseWsAux, hd]

lemma collapseWsAux_cons_ws_true (d : Nat) (t : List Nat) (hd : isJsWs d = true) :
    collapseWsAux true (d :: t) = collapseWsAux true t := by
  simp [collapseWsAux, hd]

lemma rstripWs_append_eq (l : List Nat) :
    rstripWs l ++ (l.reverse.takeWhile isJsWs).reverse = l := by
  unfold rstripWs
  calc (l.reverse.dropWhile isJsWs).reverse ++ (l.reverse.takeWhile isJsWs).reverse
      = (l.reverse.takeWhile isJsWs ++ l.reverse.dropWhile isJsWs).reverse := by
        rw [List.reverse_append]
    _ = l.reverse.reverse := by rw [List.takeWhile_append_dropWhile]
    _ = l := List.reverse_reverse l

lemma mem_rstripWs {c : Nat} {l : List Nat} (h : c ∈ rstripWs l) : c ∈ l := by
  rw [← rstripWs_append_eq l]
  exact List.mem_append.mpr (Or.inl h)

lemma mem_lstripWs {c : Nat} {l : List Nat} (h : c ∈ lstripWs l) : c ∈ l := by
  have hsplit := List.takeWhile_append_dropWhile isJsWs l
  rw [← hsplit]
  exact List.mem_append.mpr (Or.inr h)

lemma mem_collapseWsAux :
    ∀ (b : Bool) (l : List Nat) (c : Nat), c ∈ collapseWsAux b l →
      c = 32 ∨ (c ∈ l ∧ isJsWs c = false) := by
  intro b l
  induction l generalizing b with
  | nil => intro c h; simp [collapseWsAux] at h
  | cons a l' ih =>
    intro c h
    by_cases ha : isJsWs a = true
    · simp only [collapseWsAux, if_pos ha] at h
      rcases List.mem_append.mp h with h1 | h1
      · cases b with
        | true => simp at h1
        | false =>
          left
          simpa using h1
      · rcases ih true c h1 with h2 | h2
        · exact Or.inl h2
        · exact Or.inr ⟨List.mem_cons_of_mem a h2.1, h2.2⟩
    · simp only [collapseWsAux, if_neg ha] at h
      rcases List.mem_cons.mp h with rfl | h1
      · exact Or.inr ⟨List.mem_cons_self _ _, Bool.of_not_eq_true ha⟩
      · rcases ih false c h1 with h2 | h2
        · exact Or.inl h2
        · exact Or.inr ⟨List.mem_cons_of_mem a h2.1, h2.2⟩

lemma collapseWsAux_true_head :
    ∀ (l : List Nat) (c : Nat) (t : List Nat),
      collapseWsAux true l = c :: t → isJsWs c = false := by
  intro l
  induction l with
  | nil => intro c t h; simp [collapseWsAux] at h
  | cons a l' ih =>
    intro c t h
    by_cases ha : isJsWs a = true
    · simp only [collapseWsAux, if_pos ha, List.nil_append] at h
      exact ih c t h
    · simp only [collapseWsAux, if_neg ha] at h
      obtain ⟨rfl, -⟩ := List.cons.inj h
      exact Bool.of_not_eq_true ha

lemma chain'_collapseWsAux (b : Bool) (l : List Nat) :
    List.Chain' wsSpaced (collapseWsAux b l) := by
  induction l generalizing b with
  | nil => simp [collapseWsAux]
  | cons a l' ih =>
    by_cases ha : isJsWs a = true
    · cases b with
      | true =>
        rw [collapseWsAux_cons_ws_true a l' ha]
        exact ih true
      | false =>
        rw [collapseWsAux_cons_ws_false a l' ha]
        cases hX : collapseWsAux true l' with
        | nil => simp
        | cons d t =>
          refine List.chain'_cons.mpr ⟨Or.inr (collapseWsAux_true_head l' d t hX), ?_⟩
          rw [← hX]
          exact ih true
    · have ha' : isJsWs a = false := by simpa using ha
      rw [collapseWsAux_cons_not_ws b a l' ha']
      cases hX : collapseWsAux false l' with
      | nil => simp
      | cons d t =>
        refine List.chain'_cons.mpr ⟨Or.inl ha', ?_⟩
        rw [← hX]
        exact ih false

lemma chain'_take {R : Nat → Nat → Prop} {l : List Nat} (h : List.Chain' R l) (n : Nat) :
    List.Chain' R (l.take n) :=
  (List.chain'_append.mp (by rw [List.take_append_drop]; exact h)).1

lemma chain'_dropWhile {R : Nat → Nat → Prop} {l : List Nat} (h : List.Chain' R l)
    (p : Nat → Bool) : List.Chain' R (l.dropWhile p) :=
  (List.chain'_append.mp (by rw [List.takeWhile_append_dropWhile]; exact h)).2.1

lemma chain'_rstripWs {R : Nat → Nat → Prop} {l : List Nat} (h : List.Chain' R l) :
    List.Chain' R (rstripWs l) :=
  (List.chain'_append.mp (by rw [rstripWs_append_eq]; exact h)).1

lemma mem_sanitizeText (t : List Nat) (c : Nat) (h : c ∈ sanitizeText t) :
    c = 32 ∨ (isJsWs c = false ∧ inCtrlClass c = false ∧ inAngleBraceClass c = false) := by
  unfold sanitizeText at h
  by_cases ht : t = []
  · rw [if_pos ht] at h
    simp at h
  · rw [if_neg ht] at h
    have h1 := List.take_subset 1000 _ h
    have h2 := mem_lstripWs (mem_rstripWs h1)
    rcases mem_collapseWsAux false _ c h2 with h3 | ⟨h3, hws⟩
    · exact Or.inl h3
    · refine Or.inr ⟨hws, ?_, ?_⟩
      · have := List.of_mem_filter (List.mem_of_mem_filter h3)
        simpa using this
      · have := List.of_mem_filter h3
        simpa using this

lemma chain'_sanitizeText (t : List Nat) : List.Chain' wsSpaced (sanitizeText t) := by
  unfold sanitizeText
  by_cases ht : t = []
  · rw [if_pos ht]
    simp
  · rw [if_neg ht]
    exact chain'_take (chain'_rstripWs (chain'_dropWhile (chain'_collapseWsAux false _) _)) _

lemma sanitizeText_head_not_ws (t : List Nat) (c : Nat) (r : List Nat)
    (h : sanitizeText t = c :: r) : isJsWs c = false := by
  unfold sanitizeText at h
  by_cases ht : t = []
  · rw [if_pos ht] at h
    simp at h
  · rw [if_neg ht] at h
    generalize hF : (t.filter (fun a => !inCtrlClass a)).filter
      (fun a => !inAngleBraceClass a) = F at h
    cases hMc : trimWs (collapseWs F) with
    | nil => rw [hMc] at h; simp at h
    | cons m M' =>
      rw [hMc, show (1000 : Nat) = 999 + 1 from rfl, List.take_succ_cons] at h
      have hmc : m = c := (List.cons.inj h).1
      rw [← hmc]
      have hstrip := rstripWs_append_eq (lstripWs (collapseWs F))
      rw [show rstripWs (lstripWs (collapseWs F)) = m :: M' from hMc] at hstrip
      exact dropWhile_head_not isJsWs (collapseWs F) m _ hstrip.symm

lemma collapseWs_id (l : List Nat) (hws : ∀ c ∈ l, isJsWs c = true → c = 32)
    (hch : List.Chain' wsSpaced l) : collapseWsAux false l = l := by
  induction l with
  | nil => rfl
  | cons a l' ih =>
    by_cases ha : isJsWs a = true
    · have ha32 : a = 32 := hws a (List.mem_cons_self _ _) ha
      rw [collapseWsAux_cons_ws_false a l' ha, ha32]
      cases l' with
      | nil => rfl
      | cons d t =>
        have hd : isJsWs d = false := by
          rcases List.chain'_cons.mp hch with ⟨hR, -⟩
          rcases hR with h | h
          · rw [ha] at h; exact absurd h (by simp)
          · exact h
        have htail : collapseWsAux false (d :: t) = d :: t :=
          ih (fun c hc h => hws c (List.mem_cons_of_mem a hc) h) (List.Chain'.tail hch)
        rw [collapseWsAux_cons_not_ws false d t hd] at htail
        have h2 : collapseWsAux false t = t := (List.cons.inj htail).2
        rw [collapseWsAux_cons_not_ws true d t hd, h2]
    · have ha' : isJsWs a = false := by simpa using ha
      rw [collapseWsAux_cons_not_ws false a l' ha']
      have htail : collapseWsAux false l' = l' := by
        cases l' with
        | nil => rfl
        | cons d t =>
          exact ih (fun c hc h => hws c (List.mem_cons_of_mem a hc) h) (List.Chain'.tail hch)
      rw [htail]

lemma sanitizeText_length_le (t : List Nat) : (sanitizeText t).length ≤ 1000 := by
  unfold sanitizeText
  by_cases ht : t = []
  · simp [ht]
  · rw [if_neg ht]
    exact List.length_take_le 1000 _

lemma sanitizeText_idem_rstrip (t : List Nat) :
    sanitizeText (sanitizeText t) = rstripWs (sanitizeText t) := by
  cases hO : sanitizeText t with
  | nil => rfl
  | cons c O' =>
    have hmem : ∀ a ∈ c :: O', a = 32 ∨
        (isJsWs a = false ∧ inCtrlClass a = false ∧ inAngleBraceClass a = false) :=
      fun a ha => mem_sanitizeText t a (hO ▸ ha)
    have hchain : List.Chain' wsSpaced (c :: O') := hO ▸ chain'_sanitizeText t
    have hhead : isJsWs c = false := sanitizeText_head_not_ws t c O' hO
    have hlen : (c :: O').length ≤ 1000 := hO ▸ sanitizeText_length_le t
    show sanitizeText (c :: O') = rstripWs (c :: O')
    unfold sanitizeText
    rw [if_neg (List.cons_ne_nil c O')]
    have hf1 : (c :: O').filter (fun a => !inCtrlClass a) = c :: O' :=
      List.filter_eq_self.mpr (fun a ha => by
        rcases hmem a ha with rfl | hprops
        · decide
        · simp [hprops.2.1])
    have hf2 : (c :: O').filter (fun a => !inAngleBraceClass a) = c :: O' :=
      List.filter_eq_self.mpr (fun a ha => by
        rcases hmem a ha with rfl | hprops
        · decide
        · simp [hprops.2.2])
    rw [hf1, hf2]
    have hcoll : collapseWs (c :: O') = c :: O' :=
      collapseWs_id (c :: O')
        (fun a ha hws => by
          rcases hmem a ha with rfl | hprops
          · rfl
          · rw [hprops.1] at hws; exact absurd hws (by simp))
        hchain
    rw [hcoll]
    have hl : lstripWs (c :: O') = c :: O' := by
      show List.dropWhile isJsWs (c :: O') = c :: O'
      rw [List.dropWhile_cons, if_neg (by simp [hhead])]
    have htrim : trimWs (c :: O') = rstripWs (c :: O') := by
      show rstripWs (lstripWs (c :: O')) = rstripWs (c :: O')
      rw [hl]
    rw [htrim]
    have hrlen : (rstripWs (c :: O')).length ≤ 1000 := by
      have h1 : (rstripWs (c :: O')).length ≤ (c :: O').length := by
        show ((c :: O').reverse.dropWhile isJsWs).reverse.length ≤ _
        rw [List.length_reverse]
        calc ((c :: O').reverse.dropWhile isJsWs).length
            ≤ (c :: O').reverse.length := length_dropWhile_le' _ _
          _ = (c :: O').length := List.length_reverse _
      omega
    exact List.take_of_length_le hrlen

/-! ## splitSp and wrapWords lemmas (claim C4) -/

lemma splitSp_ne_nil : ∀ l : List Nat, splitSp l ≠ [] := by
  intro l
  induction l with
  | nil => simp [splitSp]
  | cons c rest ih =>
    by_cases hc : c = 32
    · simp [splitSp, hc]
    · simp only [splitSp, if_neg hc]
      cases hsp : splitSp rest with
      | nil => exact absurd hsp ih
      | cons t ts => simp

lemma splitSp_no_space :
    ∀ (l t : List Nat), t ∈ splitSp l → 32 ∉ t := by
  intro l
  induction l with
  | nil =>
    intro t ht
    simp [splitSp] at ht
    simp [ht]
  | cons c rest ih =>
    intro t ht
    by_cases hc : c = 32
    · rw [show splitSp (c :: rest) = [] :: splitSp rest by simp [splitSp, hc]] at ht
      rcases List.mem_cons.mp ht with rfl | ht'
      · simp
      · exact ih t ht'
    · cases hsp : splitSp rest with
      | nil => exact absurd hsp (splitSp_ne_nil rest)
      | cons hd tl =>
        rw [show splitSp (c :: rest) = (c :: hd) :: tl by
          simp only [splitSp, if_neg hc]; rw [hsp]] at ht
        rcases List.mem_cons.mp ht with rfl | ht'
        · intro hmem
          rcases List.mem_cons.mp hmem with h32 | h32
          · exact hc h32.symm
          · exact ih hd (hsp ▸ List.mem_cons_self _ _) h32
        · exact ih t (hsp ▸ List.mem_cons_of_mem _ ht')

lemma splitSp_singleton (x : List Nat) (hx : 32 ∉ x) : splitSp x = [x] := by
  induction x with
  | nil => rfl
  | cons c x' ih =>
    have hc : c ≠ 32 := fun h => hx (h ▸ List.mem_cons_self _ _)
    have hx' : 32 ∉ x' := fun h => hx (List.mem_cons_of_mem _ h)
    simp only [splitSp, if_neg hc]
    rw [ih hx']

lemma splitSp_append_sep (x y : List Nat) :
    splitSp (x ++ 32 :: y) = splitSp x ++ splitSp y := by
  induction x with
  | nil => simp [splitSp]
  | cons c x' ih =>
    by_cases hc : c = 32
    · subst hc
      have hL : splitSp ((32 : Nat) :: (x' ++ 32 :: y)) = [] :: splitSp (x' ++ 32 :: y) := by
        simp [splitSp]
      have hR : splitSp ((32 : Nat) :: x') = [] :: splitSp x' := by
        simp [splitSp]
      rw [List.cons_append, hL, ih, hR, List.cons_append]
    · cases hsp : splitSp x' with
      | nil => exact absurd hsp (splitSp_ne_nil x')
      | cons hd tl =>
        have hL : splitSp ((c :: x') ++ 32 :: y) = (c :: hd) :: (tl ++ splitSp y) := by
          rw [List.cons_append]
          simp only [splitSp, if_neg hc]
          rw [ih, hsp]
          rfl
        have hR : splitSp (c :: x') = (c :: hd) :: tl := by
          simp only [splitSp, if_neg hc]
          rw [hsp]
        rw [hL, hR]
        rfl

lemma wrap_tokens (tw : List Nat → Bool) :
    ∀ (ws : List (List Nat)) (cur : List Nat), (∀ w ∈ ws, 32 ∉ w) →
      ((wrapWords tw ws cur).map splitSp).flatten.filter (fun t => !decide (t = [])) =
        (splitSp cur).filter (fun t => !decide (t = [])) ++
          ws.filter (fun t => !decide (t = [])) := by
  intro ws
  induction ws with
  | nil =>
    intro cur _
    by_cases hcur : cur = []
    · subst hcur
      simp [wrapWords, splitSp]
    · simp [wrapWords, hcur]
  | cons w rest ih =>
    intro cur hws
    have hw : 32 ∉ w := hws w (List.mem_cons_self _ _)
    have hrest : ∀ v ∈ rest, 32 ∉ v := fun v hv => hws v (List.mem_cons_of_mem _ hv)
    by_cases hcur : cur = []
    · subst hcur
      have hstep : wrapWords tw (w :: rest) [] = wrapWords tw rest w := by
        simp [wrapWords]
      rw [hstep, ih w hrest, splitSp_singleton w hw]
      by_cases hwE : w = []
      · subst hwE
        simp [splitSp, List.filter_cons]
      · simp [splitSp, List.filter_cons, hwE]
    · by_cases htw : tw (cur ++ 32 :: w) = true
      · have hstep : wrapWords tw (w :: rest) cur = cur :: wrapWords tw rest w := by
          simp [wrapWords, htw, hcur]
        rw [hstep]
        rw [List.map_cons, List.flatten_cons, List.filter_append, ih w hrest,
          splitSp_singleton w hw]
        by_cases hwE : w = []
        · subst hwE
          simp [List.filter_cons]
        · simp [List.filter_cons, hwE]
      · have hstep : wrapWords tw (w :: rest) cur =
            wrapWords tw rest (cur ++ 32 :: w) := by
          simp [wrapWords, htw, hcur]
        rw [hstep, ih _ hrest]
        rw [splitSp_append_sep, List.filter_append, splitSp_singleton w hw]
        by_cases hwE : w = []
        · subst hwE
          simp [List.filter_cons]
        · simp [List.filter_cons, hwE]

lemma wrap_width (tw : List Nat → Bool) :
    ∀ (ws : List (List Nat)) (cur : List Nat), (∀ w ∈ ws, 32 ∉ w) →
      (32 ∈ cur → tw cur = false) →
      ∀ l ∈ wrapWords tw ws cur, 32 ∈ l → tw l = false := by
  intro ws
  induction ws with
  | nil =>
    intro cur _ hcur l hl
    by_cases hc : cur = []
    · subst hc
      simp [wrapWords] at hl
    · simp only [wrapWords, if_neg hc] at hl
      rcases List.mem_cons.mp hl with rfl | hl'
      · exact hcur
      · simp at hl'
  | cons w rest ih =>
    intro cur hws hcur l hl
    have hw := hws w (List.mem_cons_self _ _)
    have hrest : ∀ v ∈ rest, 32 ∉ v := fun v hv => hws v (List.mem_cons_of_mem _ hv)
    by_cases hc : cur = []
    · subst hc
      have hstep : wrapWords tw (w :: rest) [] = wrapWords tw rest w := by
        simp [wrapWords]
      rw [hstep] at hl
      exact ih w hrest (fun h32 => absurd h32 hw) l hl
    · by_cases htw : tw (cur ++ 32 :: w) = true
      · have hstep : wrapWords tw (w :: rest) cur = cur :: wrapWords tw rest w := by
          simp [wrapWords, htw, hc]
        rw [hstep] at hl
        rcases List.mem_cons.mp hl with rfl | hl'
        · exact hcur
        · exact ih w hrest (fun h32 => absurd h32 hw) l hl'
      · have hstep : wrapWords tw (w :: rest) cur =
            wrapWords tw rest (cur ++ 32 :: w) := by
          simp [wrapWords, htw, hc]
        rw [hstep] at hl
        refine ih _ hrest (fun _ => ?_) l hl
        simpa using htw

lemma wrap_nil_all_empty (tw : List Nat → Bool) :
    ∀ (ws : List (List Nat)) (cur : List Nat), wrapWords tw ws cur = [] →
      cur = [] ∧ ∀ w ∈ ws, w = [] := by
  intro ws
  induction ws with
  | nil =>
    intro cur h
    by_cases hc : cur = []
    · exact ⟨hc, by simp⟩
    · simp [wrapWords, hc] at h
  | cons w rest ih =>
    intro cur h
    by_cases hc : cur = []
    · subst hc
      have hstep : wrapWords tw (w :: rest) [] = wrapWords tw rest w := by
        simp [wrapWords]
      rw [hstep] at h
      obtain ⟨hw, hall⟩ := ih w h
      refine ⟨rfl, fun v hv => ?_⟩
      rcases List.mem_cons.mp hv with rfl | hv'
      · exact hw
      · exact hall v hv'
    · by_cases htw : tw (cur ++ 32 :: w) = true
      · have hstep : wrapWords tw (w :: rest) cur = cur :: wrapWords tw rest w := by
          simp [wrapWords, htw, hc]
        rw [hstep] at h
        simp at h
      · have hstep : wrapWords tw (w :: rest) cur =
            wrapWords tw rest (cur ++ 32 :: w) := by
          simp [wrapWords, htw, hc]
        rw [hstep] at h
        obtain ⟨htest, -⟩ := ih _ h
        simp at htest

lemma splitSp_head_cons (c : Nat) (rest : List Nat) (hc : c ≠ 32) :
    ∃ t ts, splitSp (c :: rest) = (c :: t) :: ts := by
  simp only [splitSp, if_neg hc]
  cases hsp : splitSp rest with
  | nil => exact absurd hsp (splitSp_ne_nil rest)
  | cons t ts => exact ⟨t, ts, rfl⟩

lemma inCtrlClass_eq_spec (c : Nat) :
    inCtrlClass c = (isControlChar c && !decide (c = 9 ∨ c = 10 ∨ c = 13)) := by
  rw [Bool.eq_iff_iff]
  simp only [inCtrlClass, isControlChar, Bool.and_eq_true, Bool.not_eq_true',
    decide_eq_true_eq, decide_eq_false_iff_not]
  omega

lemma checkAuth_no_throw (key : List Nat) (hne : key ≠ []) (h : Option (List Nat)) :
    ∃ r, checkAuth (some key) h = .ok r := by
  simp only [checkAuth, getRequiredEnvVar, if_neg hne]
  cases h with
  | none => exact ⟨_, rfl⟩
  | some s =>
    dsimp only
    split
    · exact ⟨_, rfl⟩
    · split
      · exact ⟨_, rfl⟩
      · exact ⟨_, rfl⟩

lemma checkAuth_valid_bearer (key : List Nat) (hne : key ≠ []) :
    checkAuth (some key) (some (strCodes "Bearer " ++ key)) = .ok none := by
  have hlen : (strCodes "Bearer ").length = 7 := rfl
  have h7 : (strCodes "Bearer " ++ key).take 7 = strCodes "Bearer " := by
    rw [← hlen, List.take_left]
  have hdrop : (strCodes "Bearer " ++ key).drop 7 = key := by
    rw [← hlen, List.drop_left]
  simp [checkAuth, getRequiredEnvVar, if_neg hne, h7, hdrop]

lemma textsOf_nil : textsOf [] = [] := rfl

lemma textsOf_append (a b : List Op) : textsOf (a ++ b) = textsOf a ++ textsOf b :=
  List.filterMap_append a b _

lemma textsOf_cons_text (t : List Nat) (x y : Int) (s : Nat) (f : PdfFont) (ops : List Op) :
    textsOf (Op.text t x y s f :: ops) = t :: textsOf ops := by
  simp [textsOf, List.filterMap_cons]

lemma textsOf_cons_line (a b c d : Int) (ops : List Op) :
    textsOf (Op.line a b c d :: ops) = textsOf ops := by
  simp [textsOf, List.filterMap_cons]

lemma textsOf_emitLines (ls : List (List Nat)) (y : Int) :
    textsOf (emitLines ls y).1 = ls.map quoteLine := by
  induction ls generalizing y with
  | nil => rfl
  | cons l ls' ih =>
    simp only [emitLines, textsOf_cons_text, List.map_cons]
    rw [ih]

/-! # Claim theorems -/

/-- C1 counterexample: not every caller-sourced drawn text passes through
`sanitizeText`.  With a `<` currency and a `<id>` product identifier the
renderer draws the raw price cell and the raw footer document identifier,
so its drawn-text list differs from the all-sanitized list the claim
asserts. -/
theorem c1_counterexample :
    textsOf (generateWarrantyClaimPacket
        ⟨⟨strCodes "<id>", strCodes "Widget", none, none, none, none, none,
          some 5, some (strCodes "<"), none⟩,
         strCodes "it broke", strCodes "Alice", strCodes "a@b.c"⟩
        (strCodes "January 1, 2025") (strCodes "1700") (fun _ => false)) ≠
      claimedSanitizedTexts
        ⟨⟨strCodes "<id>", strCodes "Widget", none, none, none, none, none,
          some 5, some (strCodes "<"), none⟩,
         strCodes "it broke", strCodes "Alice", strCodes "a@b.c"⟩
        (strCodes "January 1, 2025") (strCodes "1700") (fun _ => false) := by
  decide

/-- C1 amended: the renderer draws, in order, exactly the fixed headings,
the sanitized requester name and email, the sanitized product and purchase
label/value rows, the quoted sanitized-and-wrapped description lines, the
fixed evidence and footer strings — and two caller-sourced values that are
NOT sanitized: the price cell composed from the raw currency and price,
and the footer document identifier interpolating the raw product id. -/
theorem c1_rendererTexts (req : PacketRequest) (currentDate nowMs : List Nat)
    (tooWide : List Nat → Bool) :
    textsOf (generateWarrantyClaimPacket req currentDate nowMs tooWide) =
      [strCodes "WARRANTY CLAIM PACKET",
       strCodes "CLAIMSO",
       strCodes "Generated: " ++ currentDate,
       strCodes "PREPARED FOR:",
       sanitizeText req.userName,
       sanitizeText req.userEmail,
       strCodes "PRODUCT DETAILS:",
       strCodes "Product Name:", sanitizeText (orNA (some req.product.name)),
       strCodes "Brand:", sanitizeText (orNA req.product.brand),
       strCodes "Category:", sanitizeText (orNA req.product.category),
       strCodes "Serial Number:", sanitizeText (orNA req.product.serial_number),
       strCodes "PURCHASE INFORMATION:",
       strCodes "Purchase Date:", sanitizeText (orNA req.product.purchase_date),
       strCodes "Retailer:", sanitizeText (orNA req.product.retailer),
       strCodes "Order Number:", sanitizeText (orNA req.product.order_number),
       strCodes "Price:", priceCell req.product,
       strCodes "PROBLEM DESCRIPTION:"]
      ++ (wrapLines tooWide (splitSp (sanitizeText req.problemDescription))).map quoteLine ++
      [strCodes "SUPPORTING EVIDENCE:",
       strCodes "Photos/videos available upon request.",
       strCodes "Additional documentation can be provided as needed.",
       strCodes "Generated by CLAIMSO",
       docIdText req.product.id nowMs] := by
  simp only [generateWarrantyClaimPacket, drawRows, textsOf_append, textsOf_cons_text,
    textsOf_cons_line, textsOf_nil, textsOf_emitLines, List.cons_append, List.nil_append]

/-- C2: for every subject and body, when the receipt-extraction call fails
(thrown call, no completion text, unparseable JSON, or missing/empty
product name), `parseReceiptWithAI` returns the degraded record whose
`product_name` is the fixed tag `Email Purchase: ` followed by the original
subject and whose `notes` carries at most the first 500 characters of the
original body followed by the ellipsis marker; in every case the returned
record has a non-empty `product_name`. -/
theorem c2_receiptFallbackPolicy (o : ReceiptOutcome) (subject body : List Nat) :
    (receiptFailed o →
      (parseReceiptWithAI o subject body).product_name =
        some (strCodes "Email Purchase: " ++ subject) ∧
      (parseReceiptWithAI o subject body).notes =
        some (strCodes "Automated extraction failed. Original content: " ++
          body.take 500 ++ strCodes "...") ∧
      (body.take 500).length ≤ 500) ∧
    ∃ s, (parseReceiptWithAI o subject body).product_name = some s ∧ s ≠ [] := by
  have hfbname : (receiptFallback subject body).product_name =
      some (strCodes "Email Purchase: " ++ subject) := rfl
  have hfbnotes : (receiptFallback subject body).notes =
      some (strCodes "Automated extraction failed. Original content: " ++
        body.take 500 ++ strCodes "...") := rfl
  have hne : strCodes "Email Purchase: " ++ subject ≠ [] :=
    List.append_ne_nil_of_left_ne_nil (by decide) subject
  constructor
  · intro hfail
    have hfb : parseReceiptWithAI o subject body = receiptFallback subject body := by
      cases o with
      | parsed p =>
        simp only [receiptFailed] at hfail
        rcases hfail with h | h <;> simp [parseReceiptWithAI, h]
      | apiThrow => rfl
      | noText => rfl
      | badJson => rfl
    rw [hfb]
    exact ⟨hfbname, hfbnotes, List.length_take_le 500 body⟩
  · cases o with
    | parsed p =>
      rcases hpn : p.product_name with _ | s
      · exact ⟨_, by simp [parseReceiptWithAI, hpn, hfbname], hne⟩
      · by_cases hs : s = []
        · exact ⟨_, by simp [parseReceiptWithAI, hpn, hs, hfbname], hne⟩
        · exact ⟨s, by simp [parseReceiptWithAI, hpn, hs], hs⟩
    | apiThrow => exact ⟨_, hfbname, hne⟩
    | noText => exact ⟨_, hfbname, hne⟩
    | badJson => exact ⟨_, hfbname, hne⟩

theorem c2_witness :
    receiptFailed .noText ∧
    (parseReceiptWithAI .noText (strCodes "Your order") (strCodes "thanks")).product_name =
      some (strCodes "Email Purchase: Your order") := by
  refine ⟨trivial, ?_⟩
  have h := ((c2_receiptFallbackPolicy .noText (strCodes "Your order") (strCodes "thanks")).1
    trivial).1
  rw [h]
  decide

/-- C3: `parseStatusUpdateWithAI` returns either a record with both
`order_id` and `status` present and non-empty, or no record at all; on any
failure it returns no record rather than a degraded guess. -/
theorem c3_statusExtractionFailsClosed (o : StatusOutcome) :
    (∀ r, parseStatusUpdateWithAI o = some r →
      (∃ a, r.order_id = some a ∧ a ≠ []) ∧ ∃ b, r.status = some b ∧ b ≠ []) ∧
    (statusFailed o → parseStatusUpdateWithAI o = none) := by
  cases o with
  | parsed r =>
    rcases hid : r.order_id with _ | a <;> rcases hst : r.status with _ | b
    · exact ⟨fun r' h => by simp [parseStatusUpdateWithAI, hid, hst] at h, fun _ => by
        simp [parseStatusUpdateWithAI, hid, hst]⟩
    · exact ⟨fun r' h => by simp [parseStatusUpdateWithAI, hid, hst] at h, fun _ => by
        simp [parseStatusUpdateWithAI, hid, hst]⟩
    · exact ⟨fun r' h => by simp [parseStatusUpdateWithAI, hid, hst] at h, fun _ => by
        simp [parseStatusUpdateWithAI, hid, hst]⟩
    · by_cases hab : a = [] ∨ b = []
      · refine ⟨fun r' h => ?_, fun _ => by simp [parseStatusUpdateWithAI, hid, hst, hab]⟩
        simp [parseStatusUpdateWithAI, hid, hst, hab] at h
      · refine ⟨fun r' h => ?_, fun hfail => ?_⟩
        · have hr : r' = r := by
            simp [parseStatusUpdateWithAI, hid, hst, hab] at h
            exact h.symm
          subst hr
          exact ⟨⟨a, hid, fun ha => hab (Or.inl ha)⟩, ⟨b, hst, fun hb => hab (Or.inr hb)⟩⟩
        · simp only [statusFailed, hid, hst] at hfail
          rcases hfail with h | h | h | h
          · exact absurd h (by simp)
          · exact absurd (Option.some.inj h) (fun ha => hab (Or.inl ha))
          · exact absurd h (by simp)
          · exact absurd (Option.some.inj h) (fun hb => hab (Or.inr hb))
  | apiThrow => exact ⟨fun r h => by simp [parseStatusUpdateWithAI] at h, fun _ => rfl⟩
  | noText => exact ⟨fun r h => by simp [parseStatusUpdateWithAI] at h, fun _ => rfl⟩
  | badJson => exact ⟨fun r h => by simp [parseStatusUpdateWithAI] at h, fun _ => rfl⟩

theorem c3_witness :
    statusFailed .badJson ∧ parseStatusUpdateWithAI .badJson = none ∧
    parseStatusUpdateWithAI
      (.parsed ⟨some (strCodes "ORD-1"), some (strCodes "shipped"), none, none, none⟩) =
      some ⟨some (strCodes "ORD-1"), some (strCodes "shipped"), none, none, none⟩ := by
  refine ⟨trivial, (c3_statusExtractionFailsClosed .badJson).2 trivial, ?_⟩
  decide

/-- C6 counterexample: the sanitizer is not the composition described by the
spec.  On the input `a TAB b` the code collapses the tab (a non-printable
control character that is also whitespace) into a space, while the
spec-worded composition removes it in step 1, yielding `ab`. -/
theorem c6_counterexample :
    sanitizeText (strCodes "a\tb") = strCodes "a b" ∧
    specSanitizeText (strCodes "a\tb") = strCodes "ab" ∧
    sanitizeText (strCodes "a\tb") ≠ specSanitizeText (strCodes "a\tb") := by
  refine ⟨by decide, by decide, by decide⟩

/-- C6 amended: `sanitizeText` equals the five-step composition in which
step 1 removes only the non-printable control characters other than tab,
LF and CR (those three survive to be collapsed into spaces by step 3, and
non-ASCII control characters are untouched), followed by markup-delimiter
removal, whitespace collapse, trim, and truncation to 1000 characters, in
that order. -/
theorem c6_sanitizerComposition (t : List Nat) :
    sanitizeText t = specSanitizeTextAmended t := by
  unfold sanitizeText specSanitizeTextAmended
  by_cases h : t = []
  · simp [h]
  · rw [if_neg h, if_neg h]
    have hf : t.filter (fun c => !inCtrlClass c) =
        t.filter (fun c => !(isControlChar c && !decide (c = 9 ∨ c = 10 ∨ c = 13))) :=
      List.filter_congr (fun c _ => by rw [inCtrlClass_eq_spec])
    rw [hf]

/-- C7: the expiration date is the purchase date advanced by the given
number of months with calendar month arithmetic: whenever the purchase
day-of-month exists in the target month the day is preserved, and the
2024-01-15 + 12 months example yields the 2025-01-15 event through the
calendar route. -/
theorem c7_calendarMonthArithmetic :
    (calendarGenerator ⟨strCodes "prod-1", strCodes "Laptop", some ⟨2024, 0, 15⟩, some 12⟩ true =
      .icsEvent 2025 1 15 (strCodes "Warranty Expiration: Laptop")
        (strCodes "Your warranty for Laptop expires today.")
        (strCodes "Reminder: Warranty expires in 1 week for Laptop")) ∧
    ∀ (d : Ymd) (k : Int),
      d.day ≤ daysInMonth (d.year + (d.month + k).ediv 12) ((d.month + k).emod 12) →
      setMonthPlus d k =
        ⟨d.year + (d.month + k).ediv 12, (d.month + k).emod 12, d.day⟩ ∧
      (setMonthPlus d k).day = d.day := by
  constructor
  · decide
  · intro d k h
    have heq : setMonthPlus d k =
        ⟨d.year + (d.month + k).ediv 12, (d.month + k).emod 12, d.day⟩ := by
      unfold setMonthPlus
      simp [h]
    exact ⟨heq, by rw [heq]⟩

theorem c7_witness :
    (15 : Int) ≤ daysInMonth (2024 + ((0 : Int) + 12).ediv 12) (((0 : Int) + 12).emod 12) ∧
    setMonthPlus ⟨2024, 0, 15⟩ 12 = ⟨2025, 0, 15⟩ := by
  refine ⟨by decide, ?_⟩
  have h := (c7_calendarMonthArithmetic.2 ⟨2024, 0, 15⟩ 12 (by decide)).1
  rw [h]
  decide

/-- C8 counterexample: with the signer key absent, the pass generator does
fail with the configuration error, but only after composing the customized
pass field structure, contradicting the claim that no composition is
attempted. -/
theorem c8_counterexample :
    (truthyEnv (some (strCodes "certdata")) && truthyEnv (none : Option (List Nat))) = false ∧
    PassStep.composeFields ∈
      (generateApplePass ⟨some (strCodes "certdata"), none, none, none, none, none⟩
        ⟨strCodes "user-1", some (strCodes "Ada"), strCodes "ada@example.com", 3⟩
        (strCodes "2025")).1 := by
  exact ⟨by decide, by decide⟩

/-- C8 amended: if either mandatory signing credential is absent the
operation throws the configuration error and never reaches the
construct-and-sign phase (so no artifact bytes, partial or otherwise, are
produced) — but the customized pass field structure has already been
composed when the check happens. -/
theorem c8_passCredentialCheck (env : PassEnv) (u : UserProfile) (yr : List Nat)
    (h : (truthyEnv env.PASSKIT_CERT && truthyEnv env.PASSKIT_KEY) = false) :
    (generateApplePass env u yr).2 =
      .error (strCodes "Missing required certificate environment variables: PASSKIT_CERT, PASSKIT_KEY") ∧
    (generateApplePass env u yr).1 = [PassStep.composeFields] ∧
    PassStep.constructAndSign ∉ (generateApplePass env u yr).1 := by
  have hops : generateApplePass env u yr =
      ([PassStep.composeFields],
       .error (strCodes "Missing required certificate environment variables: PASSKIT_CERT, PASSKIT_KEY")) := by
    unfold generateApplePass
    rw [if_neg (by rw [h]; exact Bool.false_ne_true)]
  rw [hops]
  exact ⟨rfl, rfl, by decide⟩

theorem c8_witness :
    (generateApplePass ⟨none, none, none, none, none, none⟩
      ⟨strCodes "u2", none, strCodes "e@x.io", 0⟩ (strCodes "2025")).1 =
      [PassStep.composeFields] :=
  (c8_passCredentialCheck ⟨none, none, none, none, none, none⟩
    ⟨strCodes "u2", none, strCodes "e@x.io", 0⟩ (strCodes "2025") (by decide)).2.1

/-- C9 counterexample: when `SERVICES_API_KEY` is unset, the exception
thrown by `getRequiredEnvVar` inside `checkAuth` is raised OUTSIDE the try
block and propagates out of the handler uncaught, instead of being mapped
to the generic internal failure. -/
theorem c9_counterexample :
    emailParserRoute none none (.ok ⟨200, []⟩) =
      .error (strCodes "Missing required environment variable: SERVICES_API_KEY") := by
  rfl

/-- C9 amended: provided the authorization check itself does not throw
(the shared secret is configured and non-empty), every failure raised by
the body of any of the four generation operations is caught at the try
boundary and mapped to that operation's generic failure response; no
exception escapes the handler. -/
theorem c9_routeBoundary (k hdr : Option (List Nat)) (p : Except (List Nat) RouteResponse)
    (key : List Nat) (hk : k = some key) (hne : key ≠ []) :
    ((emailParserRoute k hdr p).isOk = true ∧ (pdfGeneratorRoute k hdr p).isOk = true ∧
     (passGeneratorRoute k hdr p).isOk = true ∧ (calendarGeneratorRoute k hdr p).isOk = true) ∧
    ∀ e : List Nat,
      emailParserRoute k (some (strCodes "Bearer " ++ key)) (.error e) =
        .ok ⟨500, strCodes "Internal server error"⟩ ∧
      pdfGeneratorRoute k (some (strCodes "Bearer " ++ key)) (.error e) =
        .ok ⟨500, strCodes "Failed to generate PDF"⟩ ∧
      passGeneratorRoute k (some (strCodes "Bearer " ++ key)) (.error e) =
        .ok ⟨500, strCodes "Failed to generate pass"⟩ ∧
      calendarGeneratorRoute k (some (strCodes "Bearer " ++ key)) (.error e) =
        .ok ⟨500, strCodes "Failed to generate calendar event"⟩ := by
  subst hk
  obtain ⟨r, hr⟩ := checkAuth_no_throw key hne hdr
  have hrun : ∀ (c : RouteResponse), (runRoute (some key) hdr c p).isOk = true := by
    intro c
    unfold runRoute
    rw [hr]
    cases r with
    | some resp => rfl
    | none => cases p <;> rfl
  have hvalid := checkAuth_valid_bearer key hne
  have hrun2 : ∀ (c : RouteResponse) (e : List Nat),
      runRoute (some key) (some (strCodes "Bearer " ++ key)) c (.error e) = .ok c := by
    intro c e
    unfold runRoute
    rw [hvalid]
  exact ⟨⟨hrun _, hrun _, hrun _, hrun _⟩,
    fun e => ⟨hrun2 _ e, hrun2 _ e, hrun2 _ e, hrun2 _ e⟩⟩

theorem c9_witness :
    (some (strCodes "secret-key") : Option (List Nat)) = some (strCodes "secret-key") ∧
    strCodes "secret-key" ≠ [] ∧
    (emailParserRoute (some (strCodes "secret-key")) none (.ok ⟨200, []⟩)).isOk = true := by
  refine ⟨rfl, by decide, ?_⟩
  exact ((c9_routeBoundary (some (strCodes "secret-key")) none (.ok ⟨200, []⟩)
    (strCodes "secret-key") rfl (by decide)).1).1

/-- C10: a calendar-generator request whose `warranty_length_months` is
present but 0 is rejected by the truthiness-based required-field check with
the missing-fields validation error and produces no event; the same
truthiness test renders a product price of 0 as `N/A` in the claim
packet's price cell. -/
theorem c10_truthinessZeroValues :
    (∀ (body : CalendarBody) (icsOk : Bool), body.warranty_length_months = some 0 →
      calendarGenerator body icsOk = .validationError) ∧
    ∀ p : PdfProduct, p.price = some 0 → priceCell p = strCodes "N/A" := by
  constructor
  · intro body icsOk h
    rcases hpd : body.purchase_date with _ | pd <;> simp [calendarGenerator, h, hpd]
  · intro p h
    simp [priceCell, h]

/-- C4: the greedy word wrap of the problem description (1) never splits a
word: the non-empty maximal space-free tokens of the sanitized input are
exactly the non-empty tokens of the emitted lines, in order; (2) every
emitted line containing a space (that is, holding more than a single word)
passed the width measurement, so only a lone over-long word can exceed the
usable width; (3) a non-empty sanitized description always yields at least
one line (the final non-empty buffer is flushed).  `tooWide` abstracts the
opaque comparison of the pdf-lib measured width at font size 11 against
`maxLineWidth = width - 140`. -/
theorem c4_greedyWordWrap (tooWide : List Nat → Bool) (desc : List Nat) :
    (((wrapLines tooWide (splitSp (sanitizeText desc))).map splitSp).flatten.filter
        (fun t => !decide (t = [])) =
      (splitSp (sanitizeText desc)).filter (fun t => !decide (t = []))) ∧
    (∀ l ∈ wrapLines tooWide (splitSp (sanitizeText desc)), 32 ∈ l → tooWide l = false) ∧
    (sanitizeText desc ≠ [] → wrapLines tooWide (splitSp (sanitizeText desc)) ≠ []) := by
  have hws : ∀ w ∈ splitSp (sanitizeText desc), 32 ∉ w :=
    fun w hw => splitSp_no_space _ w hw
  refine ⟨?_, ?_, ?_⟩
  · have h := wrap_tokens tooWide (splitSp (sanitizeText desc)) [] hws
    unfold wrapLines
    rw [h]
    simp [splitSp]
  · intro l hl
    exact wrap_width tooWide _ [] hws (by intro h; simp at h) l hl
  · intro hne hwrap
    obtain ⟨-, hall⟩ := wrap_nil_all_empty tooWide _ [] hwrap
    cases hO : sanitizeText desc with
    | nil => exact hne hO
    | cons c O' =>
      have hcws := sanitizeText_head_not_ws desc c O' hO
      have hc : c ≠ 32 := by
        intro h
        rw [h] at hcws
        exact absurd hcws (by decide)
      obtain ⟨t, ts, hsp⟩ := splitSp_head_cons c O' hc
      have hmem : (c :: t) ∈ splitSp (sanitizeText desc) := by
        rw [hO, hsp]
        exact List.mem_cons_self _ _
      exact absurd (hall _ hmem) (by simp)

theorem c4_witness :
    sanitizeText (strCodes "alpha beta gamma") ≠ [] ∧
    wrapLines (fun l => decide (5 < l.length))
      (splitSp (sanitizeText (strCodes "alpha beta gamma"))) ≠ [] ∧
    ((wrapLines (fun l => decide (5 < l.length))
        (splitSp (sanitizeText (strCodes "alpha beta gamma")))).map splitSp).flatten.filter
        (fun t => !decide (t = [])) =
      (splitSp (sanitizeText (strCodes "alpha beta gamma"))).filter
        (fun t => !decide (t = [])) := by
  refine ⟨by decide, ?_, (c4_greedyWordWrap (fun l => decide (5 < l.length))
    (strCodes "alpha beta gamma")).1⟩
  exact (c4_greedyWordWrap (fun l => decide (5 < l.length))
    (strCodes "alpha beta gamma")).2.2 (by decide)

/-- C5 counterexample: `sanitizeText` is not idempotent.  On 999 copies of
`a` followed by `space b`, the first application truncates at 1000
characters leaving a trailing space, and the second application trims that
space, changing the value. -/
theorem c5_counterexample :
    sanitizeText (sanitizeText (List.replicate 999 97 ++ [32, 98])) ≠
      sanitizeText (List.replicate 999 97 ++ [32, 98]) := by
  decide

/-- C5 amended: a second application of `sanitizeText` equals the first
with trailing whitespace stripped (so idempotence holds exactly when the
1000-character truncation does not cut just after a space); the output
never exceeds 1000 characters; the output contains none of the four
markup delimiters; and the output contains no ASCII control characters
(code points below 32 or 127 — non-ASCII control characters such as U+0085
pass through the sanitizer unchanged). -/
theorem c5_sanitizerInvariants (s : List Nat) :
    sanitizeText (sanitizeText s) = rstripWs (sanitizeText s) ∧
    (sanitizeText s).length ≤ 1000 ∧
    (∀ c ∈ sanitizeText s, inAngleBraceClass c = false) ∧
    ∀ c ∈ sanitizeText s, isControlChar c = false := by
  refine ⟨sanitizeText_idem_rstrip s, sanitizeText_length_le s, ?_, ?_⟩
  · intro c hc
    rcases mem_sanitizeText s c hc with rfl | h
    · decide
    · exact h.2.2
  · intro c hc
    rcases mem_sanitizeText s c hc with rfl | h
    · decide
    · have h1 := h.1
      have h2 := h.2.1
      simp only [isControlChar, decide_eq_false_iff_not]
      intro hctrl
      simp only [inCtrlClass, decide_eq_false_iff_not] at h2
      have hc9 : c = 9 ∨ c = 10 ∨ c = 13 := by omega
      simp only [isJsWs, decide_eq_false_iff_not] at h1
      rcases hc9 with rfl | rfl | rfl
      · exact h1 (Or.inl rfl)
      · exact h1 (Or.inr (Or.inl rfl))
      · exact h1 (Or.inr (Or.inr (Or.inr (Or.inr (Or.inl rfl)))))

theorem c5_witness :
    sanitizeText (strCodes " a  b ") = strCodes "a b" ∧
    sanitizeText (sanitizeText (strCodes " a  b ")) =
      rstripWs (sanitizeText (strCodes " a  b ")) :=
  ⟨by decide, (c5_sanitizerInvariants (strCodes " a  b ")).1⟩

theorem c10_witness :
    (⟨strCodes "p1", strCodes "Laptop", some ⟨2024, 0, 15⟩, some 0⟩ :
        CalendarBody).warranty_length_months = some 0 ∧
    calendarGenerator ⟨strCodes "p1", strCodes "Laptop", some ⟨2024, 0, 15⟩, some 0⟩ true =
      .validationError ∧
    priceCell ⟨strCodes "id1", strCodes "W", none, none, none, none, none, some 0, none, none⟩ =
      strCodes "N/A" := by
  refine ⟨rfl, (c10_truthinessZeroValues.1 _ true rfl), (c10_truthinessZeroValues.2 _ rfl)⟩

end ClaimsoServices
